import Mathlib

/-!
Shallow embedding of the signal-generation and trade-simulation engine of
src/Trading_Analyzer_By_Abu_Sanad.py (the update_graph callback, lines
129-242).  Prices, capital and indicator values are modelled as rationals
(the Python code uses floats; all the properties below are exact-arithmetic
facts).  Dates are modelled as integers (day numbers), so that
(index - trade_start).days becomes plain integer subtraction.
-/

namespace TradingAnalyzer

/-- One raw OHLCV row of the downloaded series (a DataFrame row). -/
structure PricePoint where
  date : ℤ
  openPrice : ℚ
  high : ℚ
  low : ℚ
  close : ℚ
  volume : ℚ
deriving Repr, DecidableEq

/-- A row after indicator computation with every derived column defined
(the rows that survive df.dropna(), lines 154-177). -/
structure IndicatorRow where
  date : ℤ
  close : ℚ
  smaShort : ℚ
  smaLong : ℚ
  rsi : ℚ
  macd : ℚ
  macdSignal : ℚ
  adl : ℚ
  adlShortSma : ℚ
  adlLongSma : ℚ
deriving Repr, DecidableEq

/-- The Sell condition of the classifier lambda (lines 183-188). -/
def sellCond (thr : ℚ) (r : IndicatorRow) : Prop :=
  r.close ≥ r.smaShort ∧ r.smaShort > r.smaLong ∧
    r.adlShortSma > r.adlLongSma ∧ r.rsi ≥ thr ∧ r.macd > r.macdSignal

instance (thr : ℚ) (r : IndicatorRow) : Decidable (sellCond thr r) := by
  unfold sellCond; infer_instance

/-- The Buy condition of the classifier lambda (lines 190-193). -/
def buyCond (r : IndicatorRow) : Prop :=
  r.close < r.smaShort ∧ r.smaShort < r.smaLong

instance (r : IndicatorRow) : Decidable (buyCond r) := by
  unfold buyCond; infer_instance

/-- df.apply lambda, lines 182-195: -1 if the Sell conjunction holds,
else 1 if the Buy conjunction holds, else 0. -/
def signalOf (thr : ℚ) (r : IndicatorRow) : ℤ :=
  if sellCond thr r then -1 else if buyCond r then 1 else 0

/-- What the trade loop reads from each row: its date (the index), its
close and its Signal column. -/
structure SimRow where
  date : ℤ
  close : ℚ
  signal : ℤ
deriving Repr, DecidableEq

/-- Row of the classified DataFrame as seen by the trade loop. -/
def toSimRow (thr : ℚ) (r : IndicatorRow) : SimRow :=
  ⟨r.date, r.close, signalOf thr r⟩

/-- One entry of the trades list (lines 220-227); the numeric content of
the formatted dict. -/
structure TradeRecord where
  sellDate : ℤ
  buyPrice : ℚ
  sellPrice : ℚ
  daysHeld : ℤ
  profit : ℚ
  profitPercent : ℚ
deriving Repr, DecidableEq

/-- Mutable state of the trade loop (lines 200-205): portfolio, the open
position (buy_price and trade_start fused with the is-None flag into an
Option), number_of_trades and the trades list. -/
structure SimState where
  portfolio : ℚ
  buy : Option (ℚ × ℤ)
  numberOfTrades : ℕ
  trades : List TradeRecord
deriving Repr, DecidableEq

/-- One iteration of the for-loop (lines 207-230).  Branch order follows
the source: Buy executes only when no position is open, Sell only when one
is open, anything else leaves the state untouched. -/
def simStep (s : SimState) (r : SimRow) : SimState :=
  match s.buy with
  | none =>
      if r.signal = 1 then
        { s with buy := some (r.close, r.date),
                 numberOfTrades := s.numberOfTrades + 1 }
      else s
  | some bp =>
      if r.signal = -1 then
        let sellPrice := r.close
        let shares := s.portfolio / bp.1
        let profit := (sellPrice - bp.1) * shares
        let portfolio1 := s.portfolio + profit
        { portfolio := portfolio1,
          buy := none,
          numberOfTrades := s.numberOfTrades,
          trades := s.trades ++
            [{ sellDate := r.date,
               buyPrice := bp.1,
               sellPrice := sellPrice,
               daysHeld := r.date - bp.2,
               profit := profit,
               profitPercent := profit / (portfolio1 - profit) * 100 }] }
      else s

/-- Initial loop state (lines 200-205). -/
def initState (init : ℚ) : SimState :=
  { portfolio := init, buy := none, numberOfTrades := 0, trades := [] }

/-- The whole trade loop as a fold over the classified rows. -/
def simulate (init : ℚ) (rows : List SimRow) : SimState :=
  rows.foldl simStep (initState init)

/-- initial_investment = 100000 (line 200). -/
def initialInvestment : ℚ := 100000

/-- The summary block (lines 232-242). -/
structure RunSummary where
  finalValue : ℚ
  totalReturn : ℚ
  percentageReturn : ℚ
  numberOfTrades : ℕ
  averageDays : ℚ
deriving Repr, DecidableEq

/-- Lines 232-235: final value, absolute and percentage return, trade
count and average days held; the division for the average is guarded by
number_of_trades > 0 and its denominator is number_of_trades (not the
length of the trades list). -/
def mkSummary (init : ℚ) (s : SimState) : RunSummary :=
  { finalValue := s.portfolio,
    totalReturn := s.portfolio - init,
    percentageReturn := (s.portfolio - init) / init * 100,
    numberOfTrades := s.numberOfTrades,
    averageDays :=
      if s.numberOfTrades > 0 then
        ((s.trades.map TradeRecord.daysHeld).sum : ℚ) / (s.numberOfTrades : ℚ)
      else 0 }

/-- Rolling simple moving average, df[c].rolling(window=w).mean()
(lines 154-155, 172-173): at index i the mean of the trailing w values,
undefined (NaN) while fewer than w values are available. -/
def smaAt (w : ℕ) (xs : List ℚ) (i : ℕ) : Option ℚ :=
  if w ≤ i + 1 then
    some ((∑ j ∈ Finset.range w, xs.getD (i + 1 - w + j) 0) / (w : ℚ))
  else none

/-- Gain of the close series at index i (0 at index 0). -/
def gainAt (xs : List ℚ) (i : ℕ) : ℚ :=
  max (xs.getD i 0 - xs.getD (i - 1) 0) 0

/-- Loss of the close series at index i (0 at index 0). -/
def lossAt (xs : List ℚ) (i : ℕ) : ℚ :=
  max (xs.getD (i - 1) 0 - xs.getD i 0) 0

/-- Modelled from the spec: ta.rsi(df[Close], length=14) (line 159) lives
in the pandas_ta library, whose code is not in this repository; the spec
describes it as the standard RSI over the preceding history, undefined
until enough history exists.  Wilder smoothing of average gain and loss
with period n, seeded at index n by the plain mean of the first n gains
and losses; undefined for i < n. -/
def rsiAvgs (n : ℕ) (xs : List ℚ) : ℕ → Option (ℚ × ℚ)
  | 0 => none
  | i + 1 =>
    if i + 1 < n then none
    else if i + 1 = n then
      some ((∑ j ∈ Finset.range n, gainAt xs (j + 1)) / (n : ℚ),
            (∑ j ∈ Finset.range n, lossAt xs (j + 1)) / (n : ℚ))
    else
      match rsiAvgs n xs i with
      | none => none
      | some gl =>
          some ((gl.1 * ((n : ℚ) - 1) + gainAt xs (i + 1)) / (n : ℚ),
                (gl.2 * ((n : ℚ) - 1) + lossAt xs (i + 1)) / (n : ℚ))

/-- Modelled from the spec: RSI value 100·g/(g+l) from the smoothed
averages (the standard 100 − 100/(1+RS) rewritten without the infinity
case). -/
def rsiAt (n : ℕ) (xs : List ℚ) (i : ℕ) : Option ℚ :=
  (rsiAvgs n xs i).map (fun gl => 100 * gl.1 / (gl.1 + gl.2))

/-- Modelled from the spec: exponential moving average of span m, the
standard exponential formula with multiplier 2/(m+1), seeded at index m−1
by the mean of the first m values; undefined before that. -/
def emaAt (m : ℕ) (xs : List ℚ) : ℕ → Option ℚ
  | 0 => if m = 1 then some (xs.getD 0 0) else none
  | i + 1 =>
    if i + 2 < m then none
    else if i + 2 = m then
      some ((∑ j ∈ Finset.range m, xs.getD j 0) / (m : ℚ))
    else
      match emaAt m xs i with
      | none => none
      | some p =>
          some (2 / ((m : ℚ) + 1) * xs.getD (i + 1) 0 +
                (1 - 2 / ((m : ℚ) + 1)) * p)

/-- Modelled from the spec: the MACD line of ta.macd(fast=12, slow=26)
(line 163, pandas_ta library code not in this repository): EMA12 − EMA26,
undefined until the slow EMA exists (index ≥ 25). -/
def macdAt (xs : List ℚ) (i : ℕ) : Option ℚ :=
  match emaAt 12 xs i, emaAt 26 xs i with
  | some f, some sl => some (f - sl)
  | _, _ => none

/-- The defined MACD values in index order (the non-NaN tail). -/
def macdVals (xs : List ℚ) : List ℚ :=
  (List.range xs.length).filterMap (macdAt xs)

/-- Modelled from the spec: the MACD signal line, EMA9 of the MACD line
over its defined values; undefined until index 25 + 8 = 33. -/
def macdSignalAt (xs : List ℚ) (i : ℕ) : Option ℚ :=
  if 25 ≤ i then emaAt 9 (macdVals xs) (i - 25) else none

/-- Modelled from the spec: money-flow volume of one row, the standard
ADL term ((close−low)−(high−close))/(high−low)·volume, taken as 0 on a
degenerate row with high = low. -/
def mfv (p : PricePoint) : ℚ :=
  (if p.high = p.low then 0
   else ((p.close - p.low) - (p.high - p.close)) / (p.high - p.low)) * p.volume

/-- Modelled from the spec: ta.ad (line 168, pandas_ta library code not in
this repository): cumulative running sum of money-flow volume from the
start of the series, defined at every index. -/
def adlAt (series : List PricePoint) (i : ℕ) : ℚ :=
  ((series.take (i + 1)).map mfv).sum

/-- The ADL column as a list, input to its own rolling SMAs. -/
def adlSeries (series : List PricePoint) : List ℚ :=
  (List.range series.length).map (adlAt series)

/-- The user parameters consumed by the engine (sma_short, sma_long,
rsi_threshold, adl_short, adl_long). -/
structure Params where
  smaShort : ℕ
  smaLong : ℕ
  rsiThreshold : ℚ
  adlShort : ℕ
  adlLong : ℕ
deriving Repr, DecidableEq

/-- Row i of the indicator table when no column is NaN there; none when
any column is NaN, in which case df.dropna() (line 177) removes it. -/
def indicatorRowAt (p : Params) (series : List PricePoint) (i : ℕ) :
    Option IndicatorRow := do
  let pt ← series.get? i
  let closes := series.map PricePoint.close
  let s1 ← smaAt p.smaShort closes i
  let s2 ← smaAt p.smaLong closes i
  let rv ← rsiAt 14 closes i
  let m1 ← macdAt closes i
  let m2 ← macdSignalAt closes i
  let a1 ← smaAt p.adlShort (adlSeries series) i
  let a2 ← smaAt p.adlLong (adlSeries series) i
  pure ⟨pt.date, pt.close, s1, s2, rv, m1, m2, adlAt series i, a1, a2⟩

/-- The rows surviving df.dropna() (line 177), in index order. -/
def validRows (p : Params) (series : List PricePoint) : List IndicatorRow :=
  (List.range series.length).filterMap (indicatorRowAt p series)

/-- The typed failures of §7 of the spec.  The source raises ValueError
for bad parameters (lines 130-133) and for an empty download (line 148);
insufficientData is the error the spec postulates for the case where
dropna leaves zero rows — the source has no such check. -/
inductive EngineError where
  | invalidParameter
  | emptySeries
  | insufficientData
deriving Repr, DecidableEq

/-- What a successful run hands to the presentation layer: the classified
rows, the trades list and the summary. -/
structure EngineOutput where
  rows : List IndicatorRow
  ledger : List TradeRecord
  summary : RunSummary
deriving Repr, DecidableEq

/-- The whole engine path of update_graph (lines 129-242): parameter
validation, empty-series check, indicator computation, dropna, signal
classification, trade simulation, summary. -/
def runEngine (p : Params) (series : List PricePoint) :
    Except EngineError EngineOutput :=
  if p.smaLong ≤ p.smaShort then .error .invalidParameter
  else if p.adlLong ≤ p.adlShort then .error .invalidParameter
  else if series.isEmpty then .error .emptySeries
  else
    let rows := validRows p series
    let st := simulate initialInvestment (rows.map (toSimRow p.rsiThreshold))
    .ok ⟨rows, st.trades, mkSummary initialInvestment st⟩

/-- C5: the Signal Classifier is a pure total function producing exactly
one of Sell (-1), Buy (+1), Hold (0); the Sell conjunction and the Buy
conjunction can never both hold for the same row (close ≥ smaShort
contradicts close < smaShort), and when the Sell conjunction holds the
output is Sell. -/
theorem c5_classifier_total_exclusive (thr : ℚ) (r : IndicatorRow) :
    (signalOf thr r = -1 ∨ signalOf thr r = 0 ∨ signalOf thr r = 1) ∧
    ¬(sellCond thr r ∧ buyCond r) ∧
    (sellCond thr r → signalOf thr r = -1) := by
  refine ⟨?_, ?_, ?_⟩
  · unfold signalOf
    split_ifs <;> simp
  · rintro ⟨hsell, hbuy⟩
    exact absurd hsell.1 (not_le.mpr hbuy.1)
  · intro h
    simp [signalOf, h]

/-- Witness for C5 at a concrete row on which the Sell conjunction
holds. -/
theorem c5_witness :
    sellCond 40 ⟨0, 10, 9, 8, 50, 2, 1, 0, 2, 1⟩ ∧
    signalOf 40 ⟨0, 10, 9, 8, 50, 2, 1, 0, 2, 1⟩ = -1 := by
  have h := c5_classifier_total_exclusive 40 ⟨0, 10, 9, 8, 50, 2, 1, 0, 2, 1⟩
  have hs : sellCond 40 ⟨0, 10, 9, 8, 50, 2, 1, 0, 2, 1⟩ := by
    refine ⟨by norm_num, by norm_num, by norm_num, by norm_num, by norm_num⟩
  exact ⟨hs, h.2.2 hs⟩

/-- C3: at most one position is open at any time — a Buy while already
Holding leaves the loop state unchanged, a Sell while Flat leaves it
unchanged, and a Hold row always leaves it unchanged. -/
theorem c3_single_open_position (s : SimState) (r : SimRow) :
    (r.signal = 1 → s.buy.isSome → simStep s r = s) ∧
    (r.signal = -1 → s.buy = none → simStep s r = s) ∧
    (r.signal = 0 → simStep s r = s) := by
  refine ⟨?_, ?_, ?_⟩
  · intro hs hb
    cases hbuy : s.buy with
    | none => rw [hbuy] at hb; simp at hb
    | some bp => simp [simStep, hbuy, hs]
  · intro hs hb
    simp [simStep, hb, hs]
  · intro hs
    cases hbuy : s.buy with
    | none => simp [simStep, hbuy, hs]
    | some bp => simp [simStep, hbuy, hs]

/-- Witness for C3: a Buy while Holding, a Sell while Flat and a Hold row
each leave a concrete state untouched. -/
theorem c3_witness :
    simStep ⟨100000, some (50, 0), 1, []⟩ ⟨5, 60, 1⟩ = ⟨100000, some (50, 0), 1, []⟩ ∧
    simStep (initState 100000) ⟨5, 60, -1⟩ = initState 100000 ∧
    simStep (initState 100000) ⟨5, 60, 0⟩ = initState 100000 :=
  ⟨(c3_single_open_position ⟨100000, some (50, 0), 1, []⟩ ⟨5, 60, 1⟩).1 rfl rfl,
   (c3_single_open_position (initState 100000) ⟨5, 60, -1⟩).2.1 rfl rfl,
   (c3_single_open_position (initState 100000) ⟨5, 60, 0⟩).2.2 rfl⟩

/-- While a position is open, every loop iteration whose row is not a
Sell leaves the whole state unchanged. -/
lemma foldl_frozen_while_holding (bp : ℚ × ℤ) :
    ∀ (l : List SimRow) (s : SimState), s.buy = some bp →
      (∀ x ∈ l, x.signal ≠ -1) → l.foldl simStep s = s := by
  intro l
  induction l with
  | nil => intro s _ _; rfl
  | cons x xs ih =>
    intro s hb hx
    have hstep : simStep s x = s := by
      simp [simStep, hb, hx x (List.mem_cons_self x xs)]
    rw [List.foldl_cons, hstep]
    exact ih s hb fun y hy => hx y (List.mem_cons_of_mem x hy)

/-- C4: an open position contributes nothing — opening a position changes
neither portfolio nor trades, and once Holding, any continuation of the
run that contains no Sell signal (in particular, the run simply ending)
leaves the entire loop state exactly as it was: the open position is never
recorded and the capital stays what it was at the moment of opening. -/
theorem c4_open_position_excluded (s : SimState) (r : SimRow) (bp : ℚ × ℤ)
    (l : List SimRow) :
    (s.buy = none → r.signal = 1 →
      (simStep s r).portfolio = s.portfolio ∧ (simStep s r).trades = s.trades) ∧
    (s.buy = some bp → (∀ x ∈ l, x.signal ≠ -1) → l.foldl simStep s = s) := by
  constructor
  · intro hb hs
    simp [simStep, hb, hs]
  · intro hb hx
    exact foldl_frozen_while_holding bp l s hb hx

/-- Witness for C4: opening a position at a concrete row keeps portfolio
and trades, and a Hold/Buy-only continuation keeps the whole state. -/
theorem c4_witness :
    (simStep (initState 100000) ⟨0, 50, 1⟩).portfolio = (initState 100000).portfolio ∧
    (simStep (initState 100000) ⟨0, 50, 1⟩).trades = (initState 100000).trades ∧
    [(⟨1, 49, 0⟩ : SimRow), ⟨2, 48, 1⟩].foldl simStep ⟨100000, some (50, 0), 1, []⟩ =
      ⟨100000, some (50, 0), 1, []⟩ := by
  have h1 := (c4_open_position_excluded (initState 100000) ⟨0, 50, 1⟩ (50, 0) []).1
    rfl rfl
  have h2 := (c4_open_position_excluded ⟨100000, some (50, 0), 1, []⟩ ⟨0, 50, 1⟩
    (50, 0) [⟨1, 49, 0⟩, ⟨2, 48, 1⟩]).2 rfl (by decide)
  exact ⟨h1.1, h1.2, h2⟩

/-- C6: a Sell that closes an open position computes
shares = capital/entryPrice, profit = (exit − entry)·shares, adds the
profit to capital, and records profitPercent = profit/capitalBefore·100,
the recorded denominator (portfolio − profit after the update) being
exactly the capital before the profit was added. -/
theorem c6_sell_close (s : SimState) (bp : ℚ × ℤ) (r : SimRow)
    (hb : s.buy = some bp) (hs : r.signal = -1) :
    simStep s r =
      { portfolio := s.portfolio + (r.close - bp.1) * (s.portfolio / bp.1),
        buy := none,
        numberOfTrades := s.numberOfTrades,
        trades := s.trades ++
          [{ sellDate := r.date,
             buyPrice := bp.1,
             sellPrice := r.close,
             daysHeld := r.date - bp.2,
             profit := (r.close - bp.1) * (s.portfolio / bp.1),
             profitPercent :=
               (r.close - bp.1) * (s.portfolio / bp.1) / s.portfolio * 100 }] } := by
  simp [simStep, hb, hs]

/-- Witness for C6, the spec's worked example: capital 100000, entry at
50, exit at 55 gives shares 2000, profit 10000, capital 110000 and
profitPercent 10. -/
theorem c6_witness :
    (100000 : ℚ) / 50 = 2000 ∧
    (simStep ⟨100000, some (50, 0), 1, []⟩ ⟨3, 55, -1⟩).portfolio = 110000 ∧
    (simStep ⟨100000, some (50, 0), 1, []⟩ ⟨3, 55, -1⟩).trades =
      [⟨3, 50, 55, 3, 10000, 10⟩] := by
  have h := c6_sell_close ⟨100000, some (50, 0), 1, []⟩ (50, 0) ⟨3, 55, -1⟩ rfl rfl
  rw [h]
  norm_num

/-- number_of_trades counts opened positions: it always equals the length
of the trades list plus one more if a position is currently open. -/
lemma numberOfTrades_counts_opens :
    ∀ (l : List SimRow) (s : SimState),
      s.numberOfTrades = s.trades.length + (if s.buy.isSome then 1 else 0) →
      (l.foldl simStep s).numberOfTrades =
        (l.foldl simStep s).trades.length +
          (if (l.foldl simStep s).buy.isSome then 1 else 0) := by
  intro l
  induction l with
  | nil => intro s h; exact h
  | cons r rs ih =>
    intro s h
    rw [List.foldl_cons]
    apply ih
    cases hb : s.buy with
    | none =>
      by_cases hs : r.signal = 1 <;> simp [simStep, hb, hs] <;> simp [hb] at h <;> omega
    | some bp =>
      by_cases hs : r.signal = -1 <;> simp [simStep, hb, hs] <;> simp [hb] at h <;> omega

/-- C1 counterexample: on the rows (Buy at day 0, Sell at day 5, Buy at
day 6) the run ends with an open position; the summary's trade count is 2
while the ledger holds one record, and the reported average days held is
5/2, not the ledger mean 5. -/
theorem c1_counterexample :
    (mkSummary 100000 (simulate 100000 [⟨0, 10, 1⟩, ⟨5, 11, -1⟩, ⟨6, 10, 1⟩])).numberOfTrades ≠
        (simulate 100000 [⟨0, 10, 1⟩, ⟨5, 11, -1⟩, ⟨6, 10, 1⟩]).trades.length ∧
    (mkSummary 100000 (simulate 100000 [⟨0, 10, 1⟩, ⟨5, 11, -1⟩, ⟨6, 10, 1⟩])).averageDays ≠
        (((simulate 100000 [⟨0, 10, 1⟩, ⟨5, 11, -1⟩, ⟨6, 10, 1⟩]).trades.map
            TradeRecord.daysHeld).sum : ℚ) /
          ((simulate 100000 [⟨0, 10, 1⟩, ⟨5, 11, -1⟩, ⟨6, 10, 1⟩]).trades.length : ℚ) := by
  constructor <;> simp [simulate, simStep, initState, mkSummary]
  norm_num

/-- C1 amended: the summary's trade count equals the number of positions
opened, which is the ledger length plus one exactly when the run ends
with an open position; only when the run ends Flat does it equal the
ledger length, and then averageDays is the ledger mean of daysHeld (0 for
an empty ledger, with the division guarded by the trade count). -/
theorem c1_amended_summary_counts (init : ℚ) (l : List SimRow) :
    (simulate init l).numberOfTrades =
      (simulate init l).trades.length +
        (if (simulate init l).buy.isSome then 1 else 0) ∧
    ((simulate init l).buy = none →
      (mkSummary init (simulate init l)).numberOfTrades =
          (simulate init l).trades.length ∧
      (mkSummary init (simulate init l)).averageDays =
        (if (simulate init l).trades.length = 0 then 0
         else (((simulate init l).trades.map TradeRecord.daysHeld).sum : ℚ) /
            ((simulate init l).trades.length : ℚ))) := by
  have hmain : (simulate init l).numberOfTrades =
      (simulate init l).trades.length +
        (if (simulate init l).buy.isSome then 1 else 0) :=
    numberOfTrades_counts_opens l (initState init) (by simp [initState])
  refine ⟨hmain, fun hb => ⟨?_, ?_⟩⟩
  · rw [hb] at hmain
    simpa [mkSummary] using hmain
  · rw [hb] at hmain
    simp only [Option.isSome_none, Bool.false_eq_true, if_false, add_zero] at hmain
    by_cases hlen : (simulate init l).trades.length = 0
    · simp [mkSummary, hmain, hlen]
    · simp [mkSummary, hmain, hlen, Nat.pos_of_ne_zero hlen]

/-- Witness for C1 amended: a run ending Flat, where the trade count does
equal the ledger length. -/
theorem c1_amended_witness :
    (simulate 100000 [⟨0, 50, 1⟩, ⟨3, 55, -1⟩]).buy = none ∧
    (mkSummary 100000 (simulate 100000 [⟨0, 50, 1⟩, ⟨3, 55, -1⟩])).numberOfTrades =
      (simulate 100000 [⟨0, 50, 1⟩, ⟨3, 55, -1⟩]).trades.length := by
  have hb : (simulate 100000 [⟨0, 50, 1⟩, ⟨3, 55, -1⟩]).buy = none := by
    simp [simulate, simStep, initState]
  exact ⟨hb, ((c1_amended_summary_counts 100000 [⟨0, 50, 1⟩, ⟨3, 55, -1⟩]).2 hb).1⟩

/-- C2 counterexample: a one-row series with the default parameters —
every indicator column is NaN on its single row, dropna leaves zero rows,
and the engine returns a successful zero-trade result instead of any
typed failure. -/
theorem c2_counterexample :
    validRows ⟨7, 10, 40, 19, 25⟩ [⟨0, 1, 2, 1, 1, 5⟩] = [] ∧
    runEngine ⟨7, 10, 40, 19, 25⟩ [⟨0, 1, 2, 1, 1, 5⟩] =
      .ok ⟨[], [], ⟨100000, 0, 0, 0, 0⟩⟩ ∧
    ∀ e : EngineError, runEngine ⟨7, 10, 40, 19, 25⟩ [⟨0, 1, 2, 1, 1, 5⟩] ≠ .error e := by
  have hok : runEngine ⟨7, 10, 40, 19, 25⟩ [⟨0, 1, 2, 1, 1, 5⟩] =
      .ok ⟨[], [], mkSummary initialInvestment (initState initialInvestment)⟩ := rfl
  refine ⟨by decide, ?_, ?_⟩
  · rw [hok]
    simp [mkSummary, initState, initialInvestment]
  · intro e
    rw [hok]
    simp

/-- C2 amended: the engine reports a typed failure only for invalid
parameters or an empty input series; when the parameters are valid, the
series is nonempty and indicator filtering drops every row, it returns a
successful result with no rows, an empty ledger and a zero-trade summary
— there is no InsufficientDataError path after dropna. -/
theorem c2_amended_silent_empty (p : Params) (series : List PricePoint)
    (h1 : p.smaShort < p.smaLong) (h2 : p.adlShort < p.adlLong)
    (h3 : series ≠ []) (h4 : validRows p series = []) :
    runEngine p series =
      .ok ⟨[], [], mkSummary initialInvestment (initState initialInvestment)⟩ := by
  unfold runEngine
  rw [if_neg (by omega), if_neg (by omega), if_neg (by simp [h3]), h4]
  rfl

/-- Witness for C2 amended at the concrete one-row series. -/
theorem c2_amended_witness :
    validRows ⟨7, 10, 40, 19, 25⟩ [⟨1, 1, 2, 1, 1, 5⟩] = [] ∧
    runEngine ⟨7, 10, 40, 19, 25⟩ [⟨1, 1, 2, 1, 1, 5⟩] =
      .ok ⟨[], [], mkSummary initialInvestment (initState initialInvestment)⟩ :=
  ⟨by decide,
   c2_amended_silent_empty ⟨7, 10, 40, 19, 25⟩ [⟨1, 1, 2, 1, 1, 5⟩]
     (by decide) (by decide) (by simp) (by decide)⟩

/-- Shape of one loop iteration that opens a position. -/
lemma simStep_open (s : SimState) (r : SimRow) (hb : s.buy = none)
    (hs : r.signal = 1) :
    simStep s r =
      { s with buy := some (r.close, r.date),
               numberOfTrades := s.numberOfTrades + 1 } := by
  simp [simStep, hb, hs]

/-- Shape of one loop iteration that closes a position. -/
lemma simStep_close (s : SimState) (bp : ℚ × ℤ) (r : SimRow)
    (hb : s.buy = some bp) (hs : r.signal = -1) :
    simStep s r =
      { portfolio := s.portfolio + (r.close - bp.1) * (s.portfolio / bp.1),
        buy := none,
        numberOfTrades := s.numberOfTrades,
        trades := s.trades ++
          [{ sellDate := r.date, buyPrice := bp.1, sellPrice := r.close,
             daysHeld := r.date - bp.2,
             profit := (r.close - bp.1) * (s.portfolio / bp.1),
             profitPercent :=
               (r.close - bp.1) * (s.portfolio / bp.1) /
                 (s.portfolio + (r.close - bp.1) * (s.portfolio / bp.1) -
                   (r.close - bp.1) * (s.portfolio / bp.1)) * 100 }] } := by
  simp [simStep, hb, hs]

/-- A loop iteration that is a no-op while Flat. -/
lemma simStep_skip_flat (s : SimState) (r : SimRow) (hb : s.buy = none)
    (hs : r.signal ≠ 1) : simStep s r = s := by
  simp [simStep, hb, hs]

/-- A loop iteration that is a no-op while Holding. -/
lemma simStep_skip_holding (s : SimState) (bp : ℚ × ℤ) (r : SimRow)
    (hb : s.buy = some bp) (hs : r.signal ≠ -1) : simStep s r = s := by
  simp [simStep, hb, hs]

/-- Closing at a nonzero entry price multiplies the portfolio by
exit/entry. -/
lemma close_portfolio_mul (p c b : ℚ) (hb : b ≠ 0) :
    p + (c - b) * (p / b) = p * (c / b) := by
  field_simp
  ring

/-- Positivity is preserved across the whole loop: with positive closes,
the portfolio stays positive and any open entry price is positive. -/
lemma sim_invariant_pos :
    ∀ (l : List SimRow) (s : SimState), (∀ r ∈ l, 0 < r.close) →
      0 < s.portfolio → (∀ bp, s.buy = some bp → 0 < bp.1) →
      0 < (l.foldl simStep s).portfolio ∧
        (∀ bp, (l.foldl simStep s).buy = some bp → 0 < bp.1) := by
  intro l
  induction l with
  | nil => intro s _ hp hb; exact ⟨hp, hb⟩
  | cons r rs ih =>
    intro s hc hp hb
    rw [List.foldl_cons]
    have hctail : ∀ x ∈ rs, 0 < x.close := fun x hx => hc x (List.mem_cons_of_mem r hx)
    rcases hbuy : s.buy with _ | bp
    · by_cases hs : r.signal = 1
      · rw [simStep_open s r hbuy hs]
        refine ih _ hctail hp ?_
        intro bp' hbp'
        simp only [Option.some.injEq] at hbp'
        rw [← hbp']
        exact hc r (List.mem_cons_self r rs)
      · rw [simStep_skip_flat s r hbuy hs]
        exact ih s hctail hp hb
    · by_cases hs : r.signal = -1
      · rw [simStep_close s bp r hbuy hs]
        refine ih _ hctail ?_ ?_
        · have hb1 : 0 < bp.1 := hb bp hbuy
          have hc1 : 0 < r.close := hc r (List.mem_cons_self r rs)
          simp only
          rw [close_portfolio_mul s.portfolio r.close bp.1 (ne_of_gt hb1)]
          exact mul_pos hp (div_pos hc1 hb1)
        · intro bp' hbp'
          simp at hbp'
      · rw [simStep_skip_holding s bp r hbuy hs]
        exact ih s hctail hp hb

/-- Product over a ledger of exitPrice/entryPrice. -/
def prodRatio (ts : List TradeRecord) : ℚ :=
  (ts.map (fun t => t.sellPrice / t.buyPrice)).prod

lemma prodRatio_append (ts : List TradeRecord) (t : TradeRecord) :
    prodRatio (ts ++ [t]) = prodRatio ts * (t.sellPrice / t.buyPrice) := by
  simp [prodRatio]

/-- Across the loop, portfolio growth is exactly the product of the
exit/entry price ratios of the records appended along the way. -/
lemma sim_portfolio_prod :
    ∀ (l : List SimRow) (s : SimState), (∀ r ∈ l, 0 < r.close) →
      (∀ bp, s.buy = some bp → 0 < bp.1) →
      (l.foldl simStep s).portfolio * prodRatio s.trades =
        s.portfolio * prodRatio (l.foldl simStep s).trades := by
  intro l
  induction l with
  | nil => intro s _ _; rfl
  | cons r rs ih =>
    intro s hc hb
    rw [List.foldl_cons]
    have hctail : ∀ x ∈ rs, 0 < x.close := fun x hx => hc x (List.mem_cons_of_mem r hx)
    rcases hbuy : s.buy with _ | bp
    · by_cases hs : r.signal = 1
      · rw [simStep_open s r hbuy hs]
        refine ih _ hctail ?_
        intro bp' hbp'
        simp only [Option.some.injEq] at hbp'
        rw [← hbp']
        exact hc r (List.mem_cons_self r rs)
      · rw [simStep_skip_flat s r hbuy hs]
        exact ih s hctail hb
    · by_cases hs : r.signal = -1
      · rw [simStep_close s bp r hbuy hs]
        have hb1 : 0 < bp.1 := hb bp hbuy
        have hc1 : 0 < r.close := hc r (List.mem_cons_self r rs)
        have hq : r.close / bp.1 ≠ 0 :=
          div_ne_zero (ne_of_gt hc1) (ne_of_gt hb1)
        set s2 : SimState :=
          { portfolio := s.portfolio + (r.close - bp.1) * (s.portfolio / bp.1),
            buy := none,
            numberOfTrades := s.numberOfTrades,
            trades := s.trades ++
              [{ sellDate := r.date, buyPrice := bp.1, sellPrice := r.close,
                 daysHeld := r.date - bp.2,
                 profit := (r.close - bp.1) * (s.portfolio / bp.1),
                 profitPercent :=
                   (r.close - bp.1) * (s.portfolio / bp.1) /
                     (s.portfolio + (r.close - bp.1) * (s.portfolio / bp.1) -
                       (r.close - bp.1) * (s.portfolio / bp.1)) * 100 }] } with hs2
        have h' := ih s2 hctail (by intro bp' hbp'; rw [hs2] at hbp'; simp at hbp')
        have htr : prodRatio s2.trades = prodRatio s.trades * (r.close / bp.1) := by
          rw [hs2, prodRatio_append]
        have hport : s2.portfolio = s.portfolio * (r.close / bp.1) := by
          rw [hs2]
          exact close_portfolio_mul s.portfolio r.close bp.1 (ne_of_gt hb1)
        rw [htr, hport] at h'
        set F := rs.foldl simStep s2 with hF
        apply mul_right_cancel₀ hq
        calc F.portfolio * prodRatio s.trades * (r.close / bp.1)
            = F.portfolio * (prodRatio s.trades * (r.close / bp.1)) := by ring
          _ = s.portfolio * (r.close / bp.1) * prodRatio F.trades := h'
          _ = s.portfolio * prodRatio F.trades * (r.close / bp.1) := by ring
      · rw [simStep_skip_holding s bp r hbuy hs]
        exact ih s hctail hb

/-- C9: with positive closes, the final capital is the initial capital
times the product over all recorded trades of exitPrice/entryPrice — each
Sell-triggered close multiplies the running capital by exit/entry, so the
recorded trades compose multiplicatively. -/
theorem c9_capital_multiplicative (init : ℚ) (l : List SimRow)
    (hpos : ∀ r ∈ l, 0 < r.close) :
    (simulate init l).portfolio = init * prodRatio (simulate init l).trades := by
  have h := sim_portfolio_prod l (initState init) hpos
    (by intro bp h'; simp [initState] at h')
  simpa [simulate, initState, prodRatio] using h

/-- Witness for C9 at a concrete two-row run: 100000 · (55/50) = 110000. -/
theorem c9_witness :
    (∀ r ∈ [(⟨0, 50, 1⟩ : SimRow), ⟨3, 55, -1⟩], 0 < r.close) ∧
    (simulate 100000 [⟨0, 50, 1⟩, ⟨3, 55, -1⟩]).portfolio =
      100000 * prodRatio (simulate 100000 [⟨0, 50, 1⟩, ⟨3, 55, -1⟩]).trades := by
  have hpos : ∀ r ∈ [(⟨0, 50, 1⟩ : SimRow), ⟨3, 55, -1⟩], 0 < r.close := by
    intro r hr
    simp only [List.mem_cons, List.not_mem_nil, or_false] at hr
    rcases hr with h | h <;> rw [h] <;> norm_num
  exact ⟨hpos, c9_capital_multiplicative 100000 _ hpos⟩

/-- C10: the two division sites of the loop — shares = capital/entryPrice
and the profitPercent denominator (capital after update minus profit,
i.e. the capital before the trade) — are unguarded in the code, but with
a positive initial capital and strictly positive closes the entry price
of any open position and the running capital are positive at every step,
so neither denominator can be zero. -/
theorem c10_denominators_nonzero (init : ℚ) (l : List SimRow) (bp : ℚ × ℤ)
    (hinit : 0 < init) (hpos : ∀ r ∈ l, 0 < r.close)
    (hb : (simulate init l).buy = some bp) :
    0 < bp.1 ∧ 0 < (simulate init l).portfolio := by
  have h := sim_invariant_pos l (initState init) hpos (by simpa [initState])
    (by intro bp' h'; simp [initState] at h')
  exact ⟨h.2 bp hb, h.1⟩

/-- Witness for C10: a run that ends holding a position bought at 50. -/
theorem c10_witness :
    (0 : ℚ) < 100000 ∧
    (simulate 100000 [⟨0, 50, 1⟩]).buy = some (50, 0) ∧
    0 < ((50 : ℚ), (0 : ℤ)).1 ∧ 0 < (simulate 100000 [⟨0, 50, 1⟩]).portfolio := by
  have hb : (simulate 100000 [⟨0, 50, 1⟩]).buy = some (50, 0) := by
    simp [simulate, simStep, initState]
  have h := c10_denominators_nonzero 100000 [⟨0, 50, 1⟩] (50, 0) (by norm_num)
    (by
      intro r hr
      simp only [List.mem_cons, List.not_mem_nil, or_false] at hr
      rw [hr]
      norm_num)
    hb
  exact ⟨by norm_num, hb, h.1, h.2⟩

/-- The chronology invariant carried through the loop: recorded trades
are pairwise non-overlapping (entry of the later at or after exit of the
earlier), days held are nonnegative, recorded exits never postdate the
open entry, and all remaining rows are dated after everything recorded. -/
lemma sim_chrono_invariant :
    ∀ (l : List SimRow) (s : SimState),
      List.Pairwise (fun r1 r2 : SimRow => r1.date < r2.date) l →
      List.Pairwise (fun t1 t2 : TradeRecord =>
        t1.sellDate ≤ t2.sellDate - t2.daysHeld) s.trades →
      (∀ t ∈ s.trades, 0 ≤ t.daysHeld) →
      (∀ bp, s.buy = some bp → ∀ t ∈ s.trades, t.sellDate ≤ bp.2) →
      (∀ r ∈ l, ∀ t ∈ s.trades, t.sellDate ≤ r.date) →
      (∀ r ∈ l, ∀ bp, s.buy = some bp → bp.2 ≤ r.date) →
      List.Pairwise (fun t1 t2 : TradeRecord =>
        t1.sellDate ≤ t2.sellDate - t2.daysHeld) (l.foldl simStep s).trades ∧
      (∀ t ∈ (l.foldl simStep s).trades, 0 ≤ t.daysHeld) := by
  intro l
  induction l with
  | nil => intro s _ h1 h2 _ _ _; exact ⟨h1, h2⟩
  | cons r rs ih =>
    intro s hdates h1 h2 h3 h4 h5
    rw [List.foldl_cons]
    have hdtail : List.Pairwise (fun r1 r2 : SimRow => r1.date < r2.date) rs :=
      hdates.of_cons
    have hdhead : ∀ x ∈ rs, r.date < x.date := (List.pairwise_cons.mp hdates).1
    rcases hbuy : s.buy with _ | bp
    · by_cases hsig : r.signal = 1
      · rw [simStep_open s r hbuy hsig]
        refine ih ⟨s.portfolio, some (r.close, r.date), s.numberOfTrades + 1,
          s.trades⟩ hdtail h1 h2 ?_ ?_ ?_
        · intro bp' hbp' t ht
          simp only [Option.some.injEq] at hbp'
          rw [← hbp']
          exact h4 r (List.mem_cons_self r rs) t ht
        · intro x hx t ht
          exact h4 x (List.mem_cons_of_mem r hx) t ht
        · intro x hx bp' hbp'
          simp only [Option.some.injEq] at hbp'
          rw [← hbp']
          exact le_of_lt (hdhead x hx)
      · rw [simStep_skip_flat s r hbuy hsig]
        refine ih s hdtail h1 h2 h3 ?_ ?_
        · intro x hx t ht; exact h4 x (List.mem_cons_of_mem r hx) t ht
        · intro x hx bp' hbp'; exact h5 x (List.mem_cons_of_mem r hx) bp' hbp'
    · by_cases hsig : r.signal = -1
      · rw [simStep_close s bp r hbuy hsig]
        refine ih
          ⟨s.portfolio + (r.close - bp.1) * (s.portfolio / bp.1),
           none,
           s.numberOfTrades,
           s.trades ++
             [⟨r.date, bp.1, r.close, r.date - bp.2,
               (r.close - bp.1) * (s.portfolio / bp.1),
               (r.close - bp.1) * (s.portfolio / bp.1) /
                 (s.portfolio + (r.close - bp.1) * (s.portfolio / bp.1) -
                   (r.close - bp.1) * (s.portfolio / bp.1)) * 100⟩]⟩
          hdtail ?_ ?_ ?_ ?_ ?_
        · refine List.pairwise_append.mpr ⟨h1, List.pairwise_singleton _ _, ?_⟩
          intro t ht t' ht'
          simp only [List.mem_singleton] at ht'
          rw [ht']
          have := h3 bp hbuy t ht
          simp only
          omega
        · intro t ht
          rcases List.mem_append.mp ht with h | h
          · exact h2 t h
          · simp only [List.mem_singleton] at h
            rw [h]
            have := h5 r (List.mem_cons_self r rs) bp hbuy
            simp only
            omega
        · intro bp' hbp'
          simp at hbp'
        · intro x hx t ht
          rcases List.mem_append.mp ht with h | h
          · exact h4 x (List.mem_cons_of_mem r hx) t h
          · simp only [List.mem_singleton] at h
            rw [h]
            exact le_of_lt (hdhead x hx)
        · intro x hx bp' hbp'
          simp at hbp'
      · rw [simStep_skip_holding s bp r hbuy hsig]
        refine ih s hdtail h1 h2 h3 ?_ ?_
        · intro x hx t ht; exact h4 x (List.mem_cons_of_mem r hx) t ht
        · intro x hx bp' hbp'; exact h5 x (List.mem_cons_of_mem r hx) bp' hbp'

/-- C7: for rows with strictly increasing dates the ledger is pairwise
non-overlapping (each trade's entry date, its exit date minus daysHeld,
is at or after every earlier trade's exit date), every record has
daysHeld ≥ 0, and the ledger is sorted by exit date. -/
theorem c7_ledger_chronology (init : ℚ) (l : List SimRow)
    (hdates : List.Pairwise (fun r1 r2 : SimRow => r1.date < r2.date) l) :
    List.Pairwise (fun t1 t2 : TradeRecord =>
      t1.sellDate ≤ t2.sellDate - t2.daysHeld) (simulate init l).trades ∧
    (∀ t ∈ (simulate init l).trades, 0 ≤ t.daysHeld) ∧
    List.Pairwise (fun t1 t2 : TradeRecord =>
      t1.sellDate ≤ t2.sellDate) (simulate init l).trades := by
  have h := sim_chrono_invariant l (initState init) hdates
    (by simp [initState]) (by simp [initState])
    (by intro bp hb; simp [initState] at hb)
    (by intro x _ t ht; simp [initState] at ht)
    (by intro x _ bp hb; simp [initState] at hb)
  refine ⟨h.1, h.2, ?_⟩
  refine List.Pairwise.imp_of_mem ?_ h.1
  intro a b _ hb hab
  have := h.2 b hb
  omega

/-- Witness for C7: two consecutive trades on strictly increasing
dates. -/
theorem c7_witness :
    List.Pairwise (fun r1 r2 : SimRow => r1.date < r2.date)
      [(⟨0, 50, 1⟩ : SimRow), ⟨3, 55, -1⟩, ⟨4, 50, 1⟩, ⟨9, 60, -1⟩] ∧
    (∀ t ∈ (simulate 100000
        [(⟨0, 50, 1⟩ : SimRow), ⟨3, 55, -1⟩, ⟨4, 50, 1⟩, ⟨9, 60, -1⟩]).trades,
      0 ≤ t.daysHeld) := by
  have hd : List.Pairwise (fun r1 r2 : SimRow => r1.date < r2.date)
      [(⟨0, 50, 1⟩ : SimRow), ⟨3, 55, -1⟩, ⟨4, 50, 1⟩, ⟨9, 60, -1⟩] := by decide
  exact ⟨hd, (c7_ledger_chronology 100000 _ hd).2.1⟩

/-- The short SMA window of 2 expanded: mean of the two trailing
closes. -/
lemma smaAt_two (closes : List ℚ) (i : ℕ) (hi : 1 ≤ i) :
    smaAt 2 closes i =
      some ((closes.getD (i - 1) 0 + closes.getD i 0) / 2) := by
  unfold smaAt
  rw [if_pos (by omega)]
  have e1 : i + 1 - 2 + 0 = i - 1 := by omega
  have e2 : i + 1 - 2 + 1 = i := by omega
  simp only [Finset.sum_range_succ, Finset.sum_range_zero, zero_add, e1, e2]
  norm_num

/-- The long SMA window of 3 expanded: mean of the three trailing
closes. -/
lemma smaAt_three (closes : List ℚ) (i : ℕ) (hi : 2 ≤ i) :
    smaAt 3 closes i =
      some ((closes.getD (i - 2) 0 + closes.getD (i - 1) 0 + closes.getD i 0) / 3) := by
  unfold smaAt
  rw [if_pos (by omega)]
  have e1 : i + 1 - 3 + 0 = i - 2 := by omega
  have e2 : i + 1 - 3 + 1 = i - 1 := by omega
  have e3 : i + 1 - 3 + 2 = i := by omega
  simp only [Finset.sum_range_succ, Finset.sum_range_zero, zero_add, e1, e2, e3]
  norm_num

/-- In a run whose every row has Signal 1, the first Buy opens a position
and nothing afterwards can close it: the ledger stays empty and the
capital stays the initial capital. -/
lemma all_buy_no_trades (init : ℚ) :
    ∀ (l : List SimRow), (∀ x ∈ l, x.signal = 1) →
      (simulate init l).trades = [] ∧ (simulate init l).portfolio = init := by
  intro l hall
  cases l with
  | nil => exact ⟨rfl, rfl⟩
  | cons r rs =>
    unfold simulate
    rw [List.foldl_cons,
        simStep_open (initState init) r rfl (hall r (List.mem_cons_self r rs)),
        foldl_frozen_while_holding (r.close, r.date) rs _ rfl
          (fun y hy => by rw [hall y (List.mem_cons_of_mem r hy)]; decide)]
    exact ⟨rfl, rfl⟩

/-- C8: on a 30-row series with strictly decreasing closes and SMA
windows 2 and 3, every row with full window coverage (index ≥ 2) has
close < SMA2 < SMA3, so the Sell conjunction cannot hold (its first
conjunct close ≥ SMA2 fails) whatever the RSI/MACD/ADL columns are, the
row classifies as Buy; and a run whose rows are all Buy ends with an
empty ledger and the capital unchanged. -/
theorem c8_decreasing_closes (closes : List ℚ)
    (thr rsiv macdv macdsv adlv adlsv adllv : ℚ) (d : ℤ) (i : ℕ)
    (hlen : closes.length = 30)
    (hdec : List.Pairwise (fun a b : ℚ => b < a) closes)
    (h2 : 2 ≤ i) (hi : i < 30) :
    (∀ s2 s3, smaAt 2 closes i = some s2 → smaAt 3 closes i = some s3 →
      ¬sellCond thr ⟨d, closes.getD i 0, s2, s3, rsiv, macdv, macdsv, adlv, adlsv, adllv⟩ ∧
      signalOf thr ⟨d, closes.getD i 0, s2, s3, rsiv, macdv, macdsv, adlv, adlsv, adllv⟩ = 1) ∧
    (∀ (init : ℚ) (l : List SimRow), (∀ x ∈ l, x.signal = 1) →
      (simulate init l).trades = [] ∧ (simulate init l).portfolio = init) := by
  constructor
  · intro s2 s3 hs2 hs3
    rw [smaAt_two closes i (by omega)] at hs2
    rw [smaAt_three closes i (by omega)] at hs3
    simp only [Option.some.injEq] at hs2 hs3
    have hget : ∀ j k : ℕ, j < k → k < 30 →
        closes.getD k 0 < closes.getD j 0 := by
      intro j k hjk hk
      have hj : j < closes.length := by omega
      have hk' : k < closes.length := by omega
      rw [List.getD_eq_getElem closes 0 hj, List.getD_eq_getElem closes 0 hk']
      exact List.pairwise_iff_getElem.mp hdec j k hj hk' hjk
    have g1 : closes.getD i 0 < closes.getD (i - 1) 0 :=
      hget (i - 1) i (by omega) hi
    have g2 : closes.getD (i - 1) 0 < closes.getD (i - 2) 0 :=
      hget (i - 2) (i - 1) (by omega) (by omega)
    have hbuy1 : closes.getD i 0 < s2 := by rw [← hs2]; linarith
    have hbuy2 : s2 < s3 := by rw [← hs2, ← hs3]; linarith
    have hnosell : ¬sellCond thr
        ⟨d, closes.getD i 0, s2, s3, rsiv, macdv, macdsv, adlv, adlsv, adllv⟩ := by
      intro hsell
      exact absurd hsell.1 (not_le.mpr hbuy1)
    refine ⟨hnosell, ?_⟩
    rw [signalOf, if_neg hnosell, if_pos ⟨hbuy1, hbuy2⟩]
  · intro init l hall
    exact all_buy_no_trades init l hall

/-- The 30 strictly decreasing closes used to witness C8. -/
def w8closes : List ℚ := [30, 29, 28, 27, 26, 25, 24, 23, 22, 21,
  20, 19, 18, 17, 16, 15, 14, 13, 12, 11, 10, 9, 8, 7, 6, 5, 4, 3, 2, 1]

/-- Witness for C8 at the concrete series 30, 29, …, 1 and index 5: the
row classifies as Buy, and an all-Buy run keeps ledger empty and capital
at 100000. -/
theorem c8_witness :
    w8closes.length = 30 ∧
    List.Pairwise (fun a b : ℚ => b < a) w8closes ∧
    signalOf 40 ⟨5, w8closes.getD 5 0, 51 / 2, 26, 50, 1, 0, 0, 1, 0⟩ = 1 ∧
    (simulate 100000 [⟨0, 30, 1⟩, ⟨1, 29, 1⟩]).trades = [] ∧
    (simulate 100000 [⟨0, 30, 1⟩, ⟨1, 29, 1⟩]).portfolio = 100000 := by
  have hdec : List.Pairwise (fun a b : ℚ => b < a) w8closes := by decide
  have h := c8_decreasing_closes w8closes 40 50 1 0 0 1 0 5 5
    (by decide) hdec (by omega) (by omega)
  have hs2 : smaAt 2 w8closes 5 = some (51 / 2) := by
    simp [smaAt, Finset.sum_range_succ, w8closes]
    norm_num
  have hs3 : smaAt 3 w8closes 5 = some 26 := by
    simp [smaAt, Finset.sum_range_succ, w8closes]
    norm_num
  have hall : ∀ x ∈ [(⟨0, 30, 1⟩ : SimRow), ⟨1, 29, 1⟩], x.signal = 1 := by decide
  refine ⟨by decide, hdec, (h.1 (51 / 2) 26 hs2 hs3).2, ?_, ?_⟩
  · exact (h.2 100000 [⟨0, 30, 1⟩, ⟨1, 29, 1⟩] hall).1
  · exact (h.2 100000 [⟨0, 30, 1⟩, ⟨1, 29, 1⟩] hall).2

end TradingAnalyzer
